import Mathlib

/-
Verification development for the Lux native bridge
(src/lux/native/lux_rust/src/lib.rs and src/components/echo.rs).

The bridge converts between the host's dynamic terms (Erlang/Elixir terms
seen through rustler) and serde_json Values, and manages component handles
(initialize / process / cleanup).

The rustler decode/encode primitives (`is_map`, `is_list`, `is_number`,
`decode::<i64>`, `decode::<f64>`, `decode::<String>`, `decode::<bool>`,
`is_atom`, `atom_to_string`, `encode`) are external library calls, not part
of this repository; they are modelled below from the spec's description of
the host term interface (spec §4.2, §Glossary).  Everything else is a direct
translation of the two Rust source files.
-/

namespace Lux

/-- Modelled from the spec: a host floating-point value.  Erlang floats are
finite doubles, but the numeric fallback path of `term_to_json` also guards
against NaN/infinity (via `serde_json::Number::from_f64`), so the model
carries those cases explicitly.  Finite doubles are modelled as rationals. -/
inductive HostFloat
  | finite (q : ℚ)
  | nan
  | posInf
  | negInf
deriving DecidableEq

/-- serde_json::Number as constructible by this program: `n.into()` from an
i64 yields the integer variant, `Number::from_f64` yields the finite float
variant. -/
inductive JNumber
  | int (n : Int)
  | float (q : ℚ)
deriving DecidableEq

/-- serde_json::Value.  Objects are serde_json::Map (default feature: a
BTreeMap ordered by key), modelled as an association list kept sorted by
`mapInsert` below. -/
inductive Value
  | null
  | bool (b : Bool)
  | number (n : JNumber)
  | string (s : String)
  | arr (elems : List Value)
  | obj (entries : List (String × Value))

/-- Modelled from the spec: the host's dynamic term representation
(spec §Glossary "Term").  `listNil`/`listCons` are list cells (lists may be
improper), `tuple2` is a 2-tuple (the only tuple shape this code produces),
`reference` stands for any other opaque term (pid, ref, fun, ...) that
reaches the catch-all branch of the classifier. -/
inductive Term
  | int (n : Int)
  | float (f : HostFloat)
  | atom (s : String)
  | binary (s : String)
  | listNil
  | listCons (hd tl : Term)
  | map (entries : List (Term × Term))
  | tuple2 (a b : Term)
  | reference

/-- Errors returned by the NIF layer: rustler's BadArg (failed decode),
`Error::Term` carrying a message (runtime creation failure), and
`Error::Term(not_implemented)` for unknown component names. -/
inductive RustError
  | badarg
  | runtimeFailure (msg : String)
  | notImplemented
deriving DecidableEq

/-- Modelled from the spec: rustler `Term::is_map`. -/
def Term.is_map : Term → Bool
  | .map _ => true
  | _ => false

/-- Modelled from the spec: rustler `Term::is_list` (true for the empty list
and for any cons cell, proper or not). -/
def Term.is_list : Term → Bool
  | .listNil => true
  | .listCons _ _ => true
  | _ => false

/-- Modelled from the spec: rustler `Term::is_number` (integers and floats). -/
def Term.is_number : Term → Bool
  | .int _ => true
  | .float _ => true
  | _ => false

/-- Modelled from the spec: rustler `Term::is_atom`. -/
def Term.is_atom : Term → Bool
  | .atom _ => true
  | _ => false

/-- Modelled from the spec: `term.decode::<i64>()` — succeeds exactly on an
integer term whose value fits in a signed 64-bit machine integer (a bignum
outside that range fails to decode). -/
def Term.decodeI64 : Term → Option Int
  | .int n => if -(2 ^ 63) ≤ n ∧ n < 2 ^ 63 then some n else none
  | _ => none

/-- Modelled from the spec: `term.decode::<f64>()` — succeeds exactly on a
float term. -/
def Term.decodeF64 : Term → Option HostFloat
  | .float f => some f
  | _ => none

/-- Modelled from the spec: `term.decode::<String>()` — succeeds exactly on a
UTF-8 binary.  Atoms do not decode as strings (the code reads their name
separately via `atom_to_string`). -/
def Term.decodeString : Term → Option String
  | .binary s => some s
  | _ => none

/-- Modelled from the spec: `term.decode::<bool>()` — decodes the boolean
atoms `true` and `false` (spec §4.2 step 5 "decodes as boolean"). -/
def Term.decodeBool : Term → Option Bool
  | .atom s =>
    if s = "true" then some true
    else if s = "false" then some false
    else none
  | _ => none

/-- Modelled from the spec: rustler `Term::atom_to_string`. -/
def Term.atomToString : Term → Option String
  | .atom s => some s
  | _ => none

/-- Modelled from the spec: `term.decode::<Vec<Term>>()` — walks the cons
cells and fails on an improper list. -/
def Term.decodeList : Term → Option (List Term)
  | .listNil => some []
  | .listCons h t => (Term.decodeList t).map (h :: ·)
  | _ => none

/-- The entry list of a map term (empty for non-maps); used to state the
classification chain. -/
def Term.mapEntries : Term → List (Term × Term)
  | .map es => es
  | _ => []

/-- Modelled from the spec: the key-decoding half of
`term.decode::<HashMap<String, Term>>()` — every key must decode as a
string, otherwise the whole decode fails. -/
def decodeStringMap : List (Term × Term) → Option (List (String × Term))
  | [] => some []
  | (k, v) :: rest =>
    match k.decodeString with
    | some s => (decodeStringMap rest).map ((s, v) :: ·)
    | none => none

/-- serde_json::Map::insert on the default (key-ordered BTreeMap) map
representation. -/
def mapInsert (k : String) (v : Value) : List (String × Value) →
    List (String × Value)
  | [] => [(k, v)]
  | (k2, v2) :: rest =>
    match compare k k2 with
    | .lt => (k, v) :: (k2, v2) :: rest
    | .eq => (k, v) :: rest
    | .gt => (k2, v2) :: mapInsert k v rest

/-- Inserting every converted entry into the serde_json map, in iteration
order (lib.rs lines 104-107). -/
def insertAll (kvs : List (String × Value)) : List (String × Value) :=
  kvs.foldl (fun m kv => mapInsert kv.1 kv.2 m) []

/-- serde_json `Number::as_i64`: Some exactly on the integer variant. -/
def JNumber.as_i64 : JNumber → Option Int
  | .int n => some n
  | .float _ => none

/-- serde_json `Number::as_f64`: always succeeds (integer variants convert;
that branch is unreachable in `json_to_term` because `as_i64` is tried
first). -/
def JNumber.as_f64 : JNumber → Option ℚ
  | .int n => some (n : ℚ)
  | .float q => some q

/-- serde_json `Number::from_f64`: succeeds exactly on finite doubles. -/
def JNumber.from_f64 : HostFloat → Option JNumber
  | .finite q => some (.float q)
  | .nan => none
  | .posInf => none
  | .negInf => none

/-- The numeric branch of `term_to_json` (lib.rs lines 116-127): try i64
decoding, then f64 decoding guarded by `Number::from_f64`, falling back to
`Number(0)`. -/
def numericToJson (t : Term) : Except RustError Value :=
  match t.decodeI64 with
  | some n => .ok (.number (.int n))
  | none =>
    match t.decodeF64 with
    | some f =>
      match JNumber.from_f64 f with
      | some num => .ok (.number num)
      | none => .ok (.number (.int 0))
    | none => .ok (.number (.int 0))

mutual

/-- `term_to_json` (lib.rs lines 100-145).  One branch per term shape, in the
source's classification order (the branches of the source's if-chain are
mutually exclusive on the term model, so the dispatch is written on the
constructors; `termToValue_precedence` below proves it equal to the ordered
predicate chain).  In the map branch the source first decodes the whole
HashMap (all keys) and then converts the values; both failures are BadArg,
and the value conversion is interleaved here per entry after the whole-map
key check. -/
def term_to_json : Term → Except RustError Value
  | .map entries =>
    if (decodeStringMap entries).isSome then
      (mapEntriesToJson entries).map (fun kvs => Value.obj (insertAll kvs))
    else .error .badarg
  | .listNil => .ok (.arr [])
  | .listCons h t =>
    if (Term.decodeList t).isSome then do
      let v ← term_to_json h
      let vs ← listItemsToJson t
      .ok (Value.arr (v :: vs))
    else .ok (.arr [])
  | .int n => numericToJson (.int n)
  | .float f => numericToJson (.float f)
  | .binary s => .ok (.string s)
  | .atom s =>
    if s = "true" then .ok (.bool true)
    else if s = "false" then .ok (.bool false)
    else if s = "nil" then .ok .null
    else .ok (.string s)
  | .tuple2 _ _ => .ok .null
  | .reference => .ok .null

/-- Conversion of the (key, value) entries of a decoded map (lib.rs lines
104-107): each key decodes as a string (already checked for the whole map),
each value is converted recursively; any failure aborts with BadArg. -/
def mapEntriesToJson : List (Term × Term) → Except RustError (List (String × Value))
  | [] => .ok []
  | (k, v) :: rest =>
    match k.decodeString with
    | none => .error .badarg
    | some ks => do
      let vj ← term_to_json v
      let restj ← mapEntriesToJson rest
      .ok ((ks, vj) :: restj)

/-- Conversion of the elements of a successfully decoded (proper) list
(lib.rs lines 111-114); on a non-list tail (unreachable when the properness
check passed) it returns the empty list. -/
def listItemsToJson : Term → Except RustError (List Value)
  | .listCons h t => do
    let v ← term_to_json h
    let vs ← listItemsToJson t
    .ok (v :: vs)
  | _ => .ok []

end

/-- The mapping branch of the classifier (lib.rs lines 101-108), as invoked
by the ordered predicate chain on a term recognized by `is_map`. -/
def mapToJson (t : Term) : Except RustError Value :=
  if (decodeStringMap t.mapEntries).isSome then
    (mapEntriesToJson t.mapEntries).map (fun kvs => Value.obj (insertAll kvs))
  else .error .badarg

/-- The sequence branch of the classifier (lib.rs lines 109-115), as invoked
by the ordered predicate chain on a term recognized by `is_list`. -/
def seqToJson : Term → Except RustError Value
  | .listNil => .ok (.arr [])
  | .listCons h t =>
    if (Term.decodeList t).isSome then do
      let v ← term_to_json h
      let vs ← listItemsToJson t
      .ok (Value.arr (v :: vs))
    else .ok (.arr [])
  | _ => .ok (.arr [])

/-- Modelled from the spec (§4.2, §9): the classification of a host term as
an ordered set of structural predicates evaluated in a fixed priority order
— mapping, then sequence, then numeric, then text, then boolean, then
atomic/symbolic (the atom named nil giving Null and any other atom the
String of its name), then the catch-all Null — with the first matching
predicate deciding the result. -/
def termToValueChain (t : Term) : Except RustError Value :=
  if t.is_map then mapToJson t
  else if t.is_list then seqToJson t
  else if t.is_number then numericToJson t
  else
    match t.decodeString with
    | some s => .ok (.string s)
    | none =>
      match t.decodeBool with
      | some b => .ok (.bool b)
      | none =>
        if t.is_atom then
          match t.atomToString with
          | some name => if name = "nil" then .ok .null else .ok (.string name)
          | none => .ok .null
        else .ok .null

/-- Builds a proper host list term from a list of terms (rustler `Vec`
encoding). -/
def listTerm : List Term → Term
  | [] => .listNil
  | t :: rest => .listCons t (listTerm rest)

mutual

/-- `json_to_term` (lib.rs lines 148-174).  Objects encode as a host LIST of
2-tuples `{key_binary, value_term}` (the source encodes a
`Vec<(String, Term)>`), arrays as host lists, strings as binaries, numbers
via `as_i64` then `as_f64`, booleans as the boolean atoms, and Null as the
`nil` atom. -/
def json_to_term : Value → Except RustError Term
  | .obj entries => do
    let ts ← obj_entries_to_terms entries
    .ok (listTerm ts)
  | .arr elems => do
    let ts ← arr_items_to_terms elems
    .ok (listTerm ts)
  | .string s => .ok (.binary s)
  | .number n =>
    match n.as_i64 with
    | some i => .ok (.int i)
    | none =>
      match n.as_f64 with
      | some f => .ok (.float (.finite f))
      | none => .ok (.int 0)
  | .bool b => .ok (.atom (if b then "true" else "false"))
  | .null => .ok (.atom "nil")

/-- Encoding of the object entry list (lib.rs lines 150-156): each entry
becomes a 2-tuple of the key binary and the converted value. -/
def obj_entries_to_terms : List (String × Value) → Except RustError (List Term)
  | [] => .ok []
  | (k, v) :: rest => do
    let t ← json_to_term v
    let ts ← obj_entries_to_terms rest
    .ok (.tuple2 (.binary k) t :: ts)

/-- Encoding of the array element list (lib.rs lines 157-160). -/
def arr_items_to_terms : List Value → Except RustError (List Term)
  | [] => .ok []
  | v :: rest => do
    let t ← json_to_term v
    let ts ← arr_items_to_terms rest
    .ok (t :: ts)

end

/-- The component instances of this repository.  The `LuxComponent` trait has
exactly one implementation, `EchoComponent` (components/echo.rs), which
stores its configuration Value. -/
inductive LuxComponent
  | echo (config : Value)

/-- `EchoComponent::initialize` (echo.rs lines 20-22): a no-op that always
succeeds.  (Spelled `initialise` because the source spelling is reserved in
Lean.) -/
def LuxComponent.initialise : LuxComponent → Except RustError Unit
  | .echo _ => .ok ()

/-- `EchoComponent::process` (echo.rs lines 24-26): returns its input Value
unchanged. -/
def LuxComponent.process : LuxComponent → Value → Except RustError Value
  | .echo _, input => .ok input

/-- `EchoComponent::cleanup` (echo.rs lines 28-30): a no-op that always
succeeds. -/
def LuxComponent.cleanup : LuxComponent → Except RustError Unit
  | .echo _ => .ok ()

/-- `ComponentResource` (lib.rs lines 28-32): the opaque handle.  The Tokio
runtime and its mutex carry no data relevant to the pure semantics (the lock
serializes calls; see the concurrency claim); the handle state is the owned
component.  Note the structure has no closed/ready flag. -/
structure ComponentResource where
  component : LuxComponent

/-- `ComponentConfig` (lib.rs lines 35-40). -/
structure ComponentConfig where
  name : String
  config : Term

/-- `create_component` (lib.rs lines 90-97): convert the config term first,
then match the name — "echo" builds an EchoComponent, anything else fails
with the not_implemented error. -/
def create_component (config : ComponentConfig) : Except RustError LuxComponent := do
  let config_json ← term_to_json config.config
  match config.name with
  | "echo" => .ok (.echo config_json)
  | _ => .error .notImplemented

/-- The `initialize` NIF (lib.rs lines 43-61), spelled `initialise` (the
source spelling is reserved in Lean).  `newRuntime` is the outcome of
`Runtime::new()` (an external effect, passed in as a parameter): create the
runtime, build the component, run its initialise to completion, and only
then wrap everything in a resource.  Any failure propagates and no resource
is produced. -/
def initialise (newRuntime : Except RustError Unit) (config : ComponentConfig) :
    Except RustError ComponentResource := do
  let _ ← newRuntime
  let component ← create_component config
  let _ ← component.initialise
  .ok ⟨component⟩

/-- The `process` NIF (lib.rs lines 64-76): convert the input term to a
Value, run the component's process to completion (under the handle's lock,
on its runtime), convert the result back to a term. -/
def process (resource : ComponentResource) (input : Term) : Except RustError Term := do
  let input_value ← term_to_json input
  let result ← resource.component.process input_value
  json_to_term result

/-- The `cleanup` NIF (lib.rs lines 79-87): run the component's cleanup to
completion and return the `ok` atom.  It does not modify the resource — the
handle carries no closed flag. -/
def cleanup (resource : ComponentResource) : Except RustError String := do
  let _ ← resource.component.cleanup
  .ok "ok"

mutual

/-- Sufficient condition for `term_to_json` to succeed: every map anywhere
inside the term has only binary (string-decodable) keys. -/
def Term.goodKeys : Term → Bool
  | .map entries => entriesGood entries
  | .listCons h t => h.goodKeys && t.goodKeys
  | _ => true

/-- All keys of a map entry list decode as strings and all values have good
keys recursively. -/
def entriesGood : List (Term × Term) → Bool
  | [] => true
  | (k, v) :: rest => (k.decodeString).isSome && v.goodKeys && entriesGood rest

end

mutual

/-- The Value class of the round-trip claim, minus Objects: built from
Null, Bool, String and Array, with every Number an integer in the signed
64-bit range. -/
def simpleValue : Value → Bool
  | .null => true
  | .bool _ => true
  | .number (.int n) => decide (-(2 ^ 63) ≤ n ∧ n < 2 ^ 63)
  | .number (.float _) => false
  | .string _ => true
  | .arr elems => simpleValueList elems
  | .obj _ => false

/-- `simpleValue` on every element of a list. -/
def simpleValueList : List Value → Bool
  | [] => true
  | v :: rest => simpleValue v && simpleValueList rest

end

/-- Decoding a properly encoded list term returns the original element
list. -/
theorem decodeList_listTerm : ∀ ts : List Term, Term.decodeList (listTerm ts) = some ts
  | [] => rfl
  | t :: rest => by simp [listTerm, Term.decodeList, decodeList_listTerm rest]

/-- The numeric branch always produces a Value (never an error). -/
theorem numericToJson_isOk (t : Term) : (numericToJson t).isOk = true := by
  unfold numericToJson
  rcases h1 : t.decodeI64 with _ | n
  · rcases h2 : t.decodeF64 with _ | f
    · rfl
    · rcases f with q | _ | _ | _ <;> rfl
  · rfl

mutual

/-- `json_to_term` succeeds on every Value. -/
theorem json_to_term_isOk : ∀ v : Value, (json_to_term v).isOk = true
  | .null => rfl
  | .bool _ => rfl
  | .string _ => rfl
  | .number n => by cases n <;> rfl
  | .arr elems => by
    have h := arr_items_to_terms_isOk elems
    cases harr : arr_items_to_terms elems with
    | ok ts => simp only [json_to_term, harr]; rfl
    | error e => rw [harr] at h; exact Bool.noConfusion h
  | .obj entries => by
    have h := obj_entries_to_terms_isOk entries
    cases hobj : obj_entries_to_terms entries with
    | ok ts => simp only [json_to_term, hobj]; rfl
    | error e => rw [hobj] at h; exact Bool.noConfusion h

/-- Object entry encoding succeeds on every entry list. -/
theorem obj_entries_to_terms_isOk :
    ∀ l : List (String × Value), (obj_entries_to_terms l).isOk = true
  | [] => rfl
  | (k, v) :: rest => by
    have hv := json_to_term_isOk v
    have hr := obj_entries_to_terms_isOk rest
    cases h1 : json_to_term v with
    | error e => rw [h1] at hv; exact Bool.noConfusion hv
    | ok t =>
      cases h2 : obj_entries_to_terms rest with
      | error e => rw [h2] at hr; exact Bool.noConfusion hr
      | ok ts => simp only [obj_entries_to_terms, h1, h2]; rfl

/-- Array element encoding succeeds on every element list. -/
theorem arr_items_to_terms_isOk :
    ∀ l : List Value, (arr_items_to_terms l).isOk = true
  | [] => rfl
  | v :: rest => by
    have hv := json_to_term_isOk v
    have hr := arr_items_to_terms_isOk rest
    cases h1 : json_to_term v with
    | error e => rw [h1] at hv; exact Bool.noConfusion hv
    | ok t =>
      cases h2 : arr_items_to_terms rest with
      | error e => rw [h2] at hr; exact Bool.noConfusion hr
      | ok ts => simp only [arr_items_to_terms, h1, h2]; rfl

end

mutual

/-- `term_to_json` succeeds on every term whose maps all have
string-decodable keys. -/
theorem term_to_json_isOk : ∀ t : Term, t.goodKeys = true → (term_to_json t).isOk = true
  | .map entries => fun h => by
    obtain ⟨hdec, hconv⟩ := entriesGood_ok entries h
    simp only [term_to_json]
    split
    · cases hc : mapEntriesToJson entries with
      | error e => rw [hc] at hconv; exact Bool.noConfusion hconv
      | ok kvs => rfl
    · rename_i hfalse
      exact absurd hdec hfalse
  | .listCons hd tl => fun h => by
    have hh : hd.goodKeys = true ∧ tl.goodKeys = true := by
      simpa [Term.goodKeys, Bool.and_eq_true] using h
    simp only [term_to_json]
    split
    · have h1 := term_to_json_isOk hd hh.1
      have h2 := listItemsToJson_isOk tl hh.2
      cases hc1 : term_to_json hd with
      | error e => rw [hc1] at h1; exact Bool.noConfusion h1
      | ok v =>
        cases hc2 : listItemsToJson tl with
        | error e => rw [hc2] at h2; exact Bool.noConfusion h2
        | ok vs => rfl
    · rfl
  | .listNil => fun _ => rfl
  | .int n => fun _ => numericToJson_isOk (.int n)
  | .float f => fun _ => numericToJson_isOk (.float f)
  | .binary _ => fun _ => rfl
  | .atom s => fun _ => by
    simp only [term_to_json]
    split
    · rfl
    · split
      · rfl
      · split <;> rfl
  | .tuple2 _ _ => fun _ => rfl
  | .reference => fun _ => rfl

/-- On a good entry list, the whole-map key decode succeeds and the entry
conversion succeeds. -/
theorem entriesGood_ok : ∀ l : List (Term × Term), entriesGood l = true →
    (decodeStringMap l).isSome = true ∧ (mapEntriesToJson l).isOk = true
  | [] => fun _ => ⟨rfl, rfl⟩
  | (k, v) :: rest => fun h => by
    have hh : ((k.decodeString).isSome = true ∧ v.goodKeys = true) ∧
        entriesGood rest = true := by
      simpa [entriesGood, Bool.and_eq_true] using h
    obtain ⟨⟨hk, hv⟩, hrest⟩ := hh
    obtain ⟨hdec, hconv⟩ := entriesGood_ok rest hrest
    have hvok := term_to_json_isOk v hv
    rcases hks : k.decodeString with _ | ks
    · rw [hks] at hk; exact Bool.noConfusion hk
    · constructor
      · simp only [decodeStringMap, hks]
        cases hd2 : decodeStringMap rest with
        | none => rw [hd2] at hdec; exact Bool.noConfusion hdec
        | some l2 => rfl
      · simp only [mapEntriesToJson, hks]
        cases hc1 : term_to_json v with
        | error e => rw [hc1] at hvok; exact Bool.noConfusion hvok
        | ok vj =>
          cases hc2 : mapEntriesToJson rest with
          | error e => rw [hc2] at hconv; exact Bool.noConfusion hconv
          | ok restj => rfl

/-- Element conversion of a good list term succeeds. -/
theorem listItemsToJson_isOk : ∀ t : Term, t.goodKeys = true →
    (listItemsToJson t).isOk = true
  | .listCons hd tl => fun h => by
    have hh : hd.goodKeys = true ∧ tl.goodKeys = true := by
      simpa [Term.goodKeys, Bool.and_eq_true] using h
    have h1 := term_to_json_isOk hd hh.1
    have h2 := listItemsToJson_isOk tl hh.2
    cases hc1 : term_to_json hd with
    | error e => rw [hc1] at h1; exact Bool.noConfusion h1
    | ok v =>
      cases hc2 : listItemsToJson tl with
      | error e => rw [hc2] at h2; exact Bool.noConfusion h2
      | ok vs => simp only [listItemsToJson, hc1, hc2]; rfl
  | .listNil => fun _ => rfl
  | .int _ => fun _ => rfl
  | .float _ => fun _ => rfl
  | .atom _ => fun _ => rfl
  | .binary _ => fun _ => rfl
  | .map _ => fun _ => rfl
  | .tuple2 _ _ => fun _ => rfl
  | .reference => fun _ => rfl

end

mutual

/-- Round-trip for Object-free Values with 64-bit-ranged integers: encoding
to a host term and classifying back returns the original Value. -/
theorem roundtrip_value : ∀ v : Value, simpleValue v = true →
    ∃ t, json_to_term v = .ok t ∧ term_to_json t = .ok v
  | .null, _ => ⟨.atom "nil", rfl, rfl⟩
  | .bool true, _ => ⟨.atom "true", rfl, rfl⟩
  | .bool false, _ => ⟨.atom "false", rfl, rfl⟩
  | .string s, _ => ⟨.binary s, rfl, rfl⟩
  | .number (.int n), h => by
    refine ⟨.int n, rfl, ?_⟩
    have hr : -(2 ^ 63) ≤ n ∧ n < 2 ^ 63 := of_decide_eq_true h
    have hd : Term.decodeI64 (.int n) = some n := by
      unfold Term.decodeI64
      exact if_pos hr
    show numericToJson (.int n) = .ok (.number (.int n))
    unfold numericToJson
    rw [hd]
  | .number (.float q), h => by simp [simpleValue] at h
  | .obj entries, h => by simp [simpleValue] at h
  | .arr elems, h => by
    obtain ⟨ts, hts, hitems, hconv⟩ := roundtrip_list elems h
    refine ⟨listTerm ts, ?_, hconv⟩
    simp only [json_to_term, hts]
    rfl

/-- Round-trip for element lists: the encoded terms form a proper host list
whose element conversion and full classification both return the original
elements. -/
theorem roundtrip_list : ∀ l : List Value, simpleValueList l = true →
    ∃ ts, arr_items_to_terms l = .ok ts ∧
      listItemsToJson (listTerm ts) = .ok l ∧
      term_to_json (listTerm ts) = .ok (.arr l)
  | [], _ => ⟨[], rfl, rfl, rfl⟩
  | v :: rest, h => by
    have hh : simpleValue v = true ∧ simpleValueList rest = true := by
      simpa [simpleValueList, Bool.and_eq_true] using h
    obtain ⟨t, hjv, htv⟩ := roundtrip_value v hh.1
    obtain ⟨ts, hts, hitems, hconv⟩ := roundtrip_list rest hh.2
    have hdec : (Term.decodeList (listTerm ts)).isSome = true := by
      simp [decodeList_listTerm]
    refine ⟨t :: ts, ?_, ?_, ?_⟩
    · simp only [arr_items_to_terms, hjv, hts]
      rfl
    · simp only [listTerm, listItemsToJson, htv, hitems]
      rfl
    · simp only [listTerm, term_to_json, hdec, if_true]
      simp only [htv, hitems]
      rfl

end

/-- Clause-by-clause description of the numeric branch: integer decoding
first, then float decoding guarded by the JSON-number check, then the
Number(0) fallback. -/
theorem numericToJson_clauses (t : Term) :
    (∀ n, t.decodeI64 = some n → numericToJson t = .ok (.number (.int n))) ∧
    (∀ f num, t.decodeI64 = none → t.decodeF64 = some f →
        JNumber.from_f64 f = some num → numericToJson t = .ok (.number num)) ∧
    (∀ f, t.decodeI64 = none → t.decodeF64 = some f → JNumber.from_f64 f = none →
        numericToJson t = .ok (.number (.int 0))) ∧
    (t.decodeI64 = none → t.decodeF64 = none →
        numericToJson t = .ok (.number (.int 0))) := by
  refine ⟨?_, ?_, ?_, ?_⟩
  · intro n h
    unfold numericToJson
    rw [h]
  · intro f num h1 h2 h3
    simp [numericToJson, h1, h2, h3]
  · intro f h1 h2 h3
    simp [numericToJson, h1, h2, h3]
  · intro h1 h2
    unfold numericToJson
    rw [h1, h2]

/-- C1 (counterexample): `termToValue` is not total.  On a host map whose
key is an atom — a syntactically valid host term — the whole-map decode
fails, and `term_to_json` returns a BadArg error instead of a Value. -/
theorem termToValue_atom_key_fails :
    term_to_json (.map [(.atom "k", .atom "nil")]) = .error .badarg := rfl

/-- C1 (amended): `valueToTerm` never fails for any Value, and `termToValue`
never fails on a host term in which every map, at every nesting level, has
only string-decodable (binary) keys; it does fail (with BadArg) on a map
with a non-string key. -/
theorem bridge_totality_amended :
    (∀ v : Value, (json_to_term v).isOk = true) ∧
    (∀ t : Term, t.goodKeys = true → (term_to_json t).isOk = true) :=
  ⟨json_to_term_isOk, term_to_json_isOk⟩

/-- C1 witness: the amended totality at concrete inputs. -/
theorem bridge_totality_amended_witness :
    (json_to_term (Value.obj [("a", Value.null)])).isOk = true ∧
    (term_to_json (.map [(.binary "a", .atom "nil")])).isOk = true :=
  ⟨bridge_totality_amended.1 _, bridge_totality_amended.2 _ (by decide)⟩

/-- C2 (counterexample): round-trip identity fails for Objects.  The empty
Object — a Value built from the claim's constructors — converts to the
empty host list, which classifies back as the empty Array, not as the
original Object. -/
theorem roundtrip_object_fails :
    (json_to_term (Value.obj [])).bind term_to_json = .ok (Value.arr []) ∧
    Value.arr [] ≠ Value.obj [] :=
  ⟨rfl, fun h => Value.noConfusion h⟩

/-- C2 (amended): round-trip identity holds for every Value built from
Null, Bool, String and Array with integer numbers in the signed 64-bit
range; Objects are excluded, since they convert to host lists of key-value
tuples and classify back as Arrays. -/
theorem roundtrip_simple_values :
    ∀ v : Value, simpleValue v = true →
      (json_to_term v).bind term_to_json = .ok v := by
  intro v h
  obtain ⟨t, hj, ht⟩ := roundtrip_value v h
  rw [hj]
  exact ht

/-- C2 witness: round trip of a concrete nested Value. -/
theorem roundtrip_simple_values_witness :
    (json_to_term (Value.arr [Value.null, Value.bool true, Value.string "x",
        Value.number (.int 42)])).bind term_to_json =
      .ok (Value.arr [Value.null, Value.bool true, Value.string "x",
        Value.number (.int 42)]) :=
  roundtrip_simple_values _ (by decide)

/-- C3 (counterexample): `valueToTerm` does not map an Object to a host
mapping — the produced term is a list of 2-tuples, which the mapping
predicate used by `termToValue` does not recognize. -/
theorem valueToTerm_object_not_map :
    json_to_term (Value.obj [("a", Value.null)]) =
      .ok (.listCons (.tuple2 (.binary "a") (.atom "nil")) .listNil) ∧
    Term.is_map (.listCons (.tuple2 (.binary "a") (.atom "nil")) .listNil) = false :=
  ⟨rfl, rfl⟩

/-- C3 (amended): `valueToTerm` is a structural match on the Value tag, but
an Object becomes a host LIST of (key, value) 2-tuples built from its entry
list — a sequence, not a term the mapping predicate recognizes.  An Array
becomes a host sequence, a String host text, a Bool a host boolean atom, and
Null the host's `nil` atom. -/
theorem valueToTerm_structure :
    (∀ entries ts, obj_entries_to_terms entries = .ok ts →
        json_to_term (.obj entries) = .ok (listTerm ts) ∧
        Term.is_map (listTerm ts) = false ∧ Term.is_list (listTerm ts) = true) ∧
    (∀ k v tv rest ts, json_to_term v = .ok tv → obj_entries_to_terms rest = .ok ts →
        obj_entries_to_terms ((k, v) :: rest) = .ok (.tuple2 (.binary k) tv :: ts)) ∧
    (∀ elems ts, arr_items_to_terms elems = .ok ts →
        json_to_term (.arr elems) = .ok (listTerm ts) ∧
        Term.is_list (listTerm ts) = true) ∧
    (∀ s, json_to_term (.string s) = .ok (.binary s)) ∧
    (∀ b, json_to_term (.bool b) = .ok (.atom (if b then "true" else "false"))) ∧
    json_to_term .null = .ok (.atom "nil") := by
  refine ⟨?_, ?_, ?_, fun s => rfl, fun b => rfl, rfl⟩
  · intro entries ts h
    refine ⟨?_, ?_, ?_⟩
    · simp only [json_to_term, h]
      rfl
    · cases ts <;> rfl
    · cases ts <;> rfl
  · intro k v tv rest ts h1 h2
    simp only [obj_entries_to_terms, h1, h2]
    rfl
  · intro elems ts h
    refine ⟨?_, ?_⟩
    · simp only [json_to_term, h]
      rfl
    · cases ts <;> rfl

/-- C3 witness: the amended structure at concrete inputs. -/
theorem valueToTerm_structure_witness :
    (json_to_term (.obj [("a", Value.null)]) =
        .ok (listTerm [.tuple2 (.binary "a") (.atom "nil")]) ∧
      Term.is_map (listTerm [.tuple2 (.binary "a") (.atom "nil")]) = false ∧
      Term.is_list (listTerm [.tuple2 (.binary "a") (.atom "nil")]) = true) ∧
    obj_entries_to_terms [("a", Value.null)] =
      .ok (.tuple2 (.binary "a") (.atom "nil") :: []) ∧
    (json_to_term (.arr [Value.null]) = .ok (listTerm [.atom "nil"]) ∧
      Term.is_list (listTerm [.atom "nil"]) = true) :=
  ⟨valueToTerm_structure.1 _ _ rfl,
    valueToTerm_structure.2.1 "a" Value.null _ [] [] rfl rfl,
    valueToTerm_structure.2.2.1 _ _ rfl⟩

/-- C4: `termToValue` classifies every host term by the structural
predicates in the fixed precedence order — mapping, then sequence, then
numeric, then text, then boolean, then atomic/symbolic (the atom named nil
becoming Null and any other atom the String of its name), then the catch-all
Null — with the first matching predicate deciding the result. -/
theorem termToValue_precedence : ∀ t : Term, term_to_json t = termToValueChain t := by
  intro t
  cases t with
  | atom s =>
    by_cases h1 : s = "true"
    · subst h1; rfl
    · by_cases h2 : s = "false"
      · subst h2; rfl
      · by_cases h3 : s = "nil"
        · subst h3; rfl
        · simp [term_to_json, termToValueChain, Term.is_map, Term.is_list,
            Term.is_number, Term.decodeString, Term.decodeBool, Term.is_atom,
            Term.atomToString, h1, h2, h3]
  | _ => rfl

/-- C5: on every numeric host term the classifier attempts integer decoding
first; on failure it attempts floating-point decoding guarded by the
JSON-number check; and when both decodings fail, or the decoded float has no
JSON number representation (NaN or infinity), it returns Number(0) instead
of failing the conversion. -/
theorem termToValue_numeric_policy : ∀ t : Term, t.is_number = true →
    (∀ n, t.decodeI64 = some n → term_to_json t = .ok (.number (.int n))) ∧
    (∀ f num, t.decodeI64 = none → t.decodeF64 = some f →
        JNumber.from_f64 f = some num → term_to_json t = .ok (.number num)) ∧
    (∀ f, t.decodeI64 = none → t.decodeF64 = some f → JNumber.from_f64 f = none →
        term_to_json t = .ok (.number (.int 0))) ∧
    (t.decodeI64 = none → t.decodeF64 = none →
        term_to_json t = .ok (.number (.int 0))) := by
  intro t ht
  cases t with
  | int n => exact numericToJson_clauses (.int n)
  | float f => exact numericToJson_clauses (.float f)
  | _ => exact Bool.noConfusion ht

/-- C5 witness: an out-of-range integer (bignum) defeats both decodings and
converts to Number(0), and a NaN float falls back to Number(0) as well. -/
theorem termToValue_numeric_policy_witness :
    Term.is_number (.int (2 ^ 63)) = true ∧
    term_to_json (.int (2 ^ 63)) = .ok (.number (.int 0)) ∧
    term_to_json (.float .nan) = .ok (.number (.int 0)) :=
  ⟨rfl, (termToValue_numeric_policy (.int (2 ^ 63)) rfl).2.2.2 (by decide) rfl,
    (termToValue_numeric_policy (.float .nan) rfl).2.2.1 .nan rfl rfl rfl⟩

/-- Do-notation unfolding of `initialise`. -/
theorem initialise_eq (rt : Except RustError Unit) (cfg : ComponentConfig) :
    initialise rt cfg =
      Except.bind rt (fun _ =>
        Except.bind (create_component cfg) (fun comp =>
          Except.bind comp.initialise (fun _ => .ok ⟨comp⟩))) := rfl

/-- Do-notation unfolding of `create_component`. -/
theorem create_component_eq (cfg : ComponentConfig) :
    create_component cfg =
      Except.bind (term_to_json cfg.config) (fun cj =>
        match cfg.name with
        | "echo" => .ok (.echo cj)
        | _ => .error .notImplemented) := rfl

/-- Do-notation unfolding of `process`. -/
theorem process_eq (r : ComponentResource) (input : Term) :
    process r input =
      Except.bind (term_to_json input) (fun iv =>
        Except.bind (r.component.process iv) (fun result => json_to_term result)) := rfl

/-- C6: create is atomic — a handle is returned only when runtime creation,
component construction (including config conversion) and the component's own
initialise all succeed; and an unknown component name, reached with a
working runtime and a convertible config, fails with the NotImplemented
error and produces no handle. -/
theorem initialise_failure_atomicity :
    (∀ (rt : Except RustError Unit) (cfg : ComponentConfig) (res : ComponentResource),
        initialise rt cfg = .ok res →
        rt = .ok () ∧ ∃ comp, create_component cfg = .ok comp ∧
          comp.initialise = .ok () ∧ res = ⟨comp⟩) ∧
    (∀ (rt : Except RustError Unit) (cfg : ComponentConfig),
        rt = .ok () → (term_to_json cfg.config).isOk = true → cfg.name ≠ "echo" →
        initialise rt cfg = .error .notImplemented) := by
  constructor
  · intro rt cfg res h
    rcases rt with e | u
    · exact Except.noConfusion h
    · cases u
      rw [initialise_eq] at h
      rcases hc : create_component cfg with e | comp
      · rw [hc] at h
        exact Except.noConfusion h
      · rw [hc] at h
        rcases comp with ⟨cfgv⟩
        have h' : (Except.ok ⟨LuxComponent.echo cfgv⟩ :
            Except RustError ComponentResource) = .ok res := h
        injection h' with h2
        exact ⟨rfl, .echo cfgv, rfl, rfl, h2.symm⟩
  · intro rt cfg hrt hok hname
    subst hrt
    rcases ht : term_to_json cfg.config with e | v
    · rw [ht] at hok
      exact Bool.noConfusion hok
    · have hc : create_component cfg = .error .notImplemented := by
        rw [create_component_eq, ht]
        show (match cfg.name with
          | "echo" => Except.ok (LuxComponent.echo v)
          | _ => Except.error RustError.notImplemented) = .error .notImplemented
        split
        · rename_i heq
          exact absurd heq hname
        · rfl
      rw [initialise_eq, hc]
      rfl

/-- C6 witness: a successful creation satisfies the atomicity conclusion,
and a concrete unknown name fails with NotImplemented. -/
theorem initialise_failure_atomicity_witness :
    ((Except.ok () : Except RustError Unit) = .ok () ∧
      ∃ comp, create_component ⟨"echo", .atom "nil"⟩ = .ok comp ∧
        comp.initialise = .ok () ∧
        (⟨.echo .null⟩ : ComponentResource) = ⟨comp⟩) ∧
    initialise (.ok ()) ⟨"nonexistent-name", .atom "nil"⟩ = .error .notImplemented :=
  ⟨initialise_failure_atomicity.1 (.ok ()) ⟨"echo", .atom "nil"⟩ ⟨.echo .null⟩ rfl,
    initialise_failure_atomicity.2 (.ok ()) ⟨"nonexistent-name", .atom "nil"⟩ rfl rfl
      (by decide)⟩

/-- C7 (counterexample): echo identity fails for Objects.  The empty Object
passes through create and invoke successfully, but the returned term
classifies back as the empty Array, not as the original Object. -/
theorem echo_identity_object_fails :
    initialise (.ok ()) ⟨"echo", .atom "nil"⟩ = .ok ⟨.echo .null⟩ ∧
    json_to_term (Value.obj []) = .ok .listNil ∧
    process ⟨.echo .null⟩ .listNil = .ok .listNil ∧
    term_to_json .listNil = .ok (Value.arr []) ∧
    Value.arr [] ≠ Value.obj [] :=
  ⟨rfl, rfl, rfl, rfl, fun h => Value.noConfusion h⟩

/-- C7 (amended): for every convertible config term and every Object-free
Value v with integers in the 64-bit range, creating an "echo" handle
succeeds, invoking it on valueToTerm(v) succeeds, and the returned term
classifies back to v; the echo component's initialise and cleanup always
succeed, and its process returns its input Value unchanged. -/
theorem echo_identity_simple :
    ∀ (cfgT : Term) (v : Value), (term_to_json cfgT).isOk = true →
      simpleValue v = true →
      ∃ res tin tout,
        initialise (.ok ()) ⟨"echo", cfgT⟩ = .ok res ∧
        json_to_term v = .ok tin ∧
        process res tin = .ok tout ∧
        term_to_json tout = .ok v ∧
        res.component.initialise = .ok () ∧
        res.component.cleanup = .ok () ∧
        (∀ w, res.component.process w = .ok w) := by
  intro cfgT v hok hsimple
  rcases hcfg : term_to_json cfgT with e | cfgv
  · rw [hcfg] at hok
    exact Bool.noConfusion hok
  · obtain ⟨t, hjv, htv⟩ := roundtrip_value v hsimple
    have hcc : create_component ⟨"echo", cfgT⟩ = .ok (.echo cfgv) := by
      rw [create_component_eq]
      show Except.bind (term_to_json cfgT) (fun cj =>
        Except.ok (LuxComponent.echo cj)) = .ok (.echo cfgv)
      rw [hcfg]
      rfl
    refine ⟨⟨.echo cfgv⟩, t, t, ?_, hjv, ?_, htv, rfl, rfl, fun w => rfl⟩
    · rw [initialise_eq, hcc]
      rfl
    · rw [process_eq, htv]
      show json_to_term v = Except.ok t
      exact hjv

/-- C7 witness: the amended echo identity at a concrete config and Value. -/
theorem echo_identity_simple_witness :
    ∃ res tin tout,
      initialise (.ok ()) ⟨"echo", .atom "nil"⟩ = .ok res ∧
      json_to_term (Value.arr [Value.null, Value.string "x"]) = .ok tin ∧
      process res tin = .ok tout ∧
      term_to_json tout = .ok (Value.arr [Value.null, Value.string "x"]) ∧
      res.component.initialise = .ok () ∧
      res.component.cleanup = .ok () ∧
      (∀ w, res.component.process w = .ok w) :=
  echo_identity_simple (.atom "nil") (Value.arr [Value.null, Value.string "x"])
    rfl (by decide)

/-- C8 (counterexample): post-close invocation is NOT rejected.  Cleanup on
an echo handle succeeds, the handle is unchanged (the resource carries no
closed flag, and cleanup mutates nothing), and a subsequent process call on
that same handle succeeds instead of returning an error. -/
theorem post_close_invoke_succeeds :
    cleanup ⟨.echo .null⟩ = .ok "ok" ∧
    process ⟨.echo .null⟩ (.atom "nil") = .ok (.atom "nil") ∧
    (process ⟨.echo .null⟩ (.atom "nil")).isOk = true :=
  ⟨rfl, rfl, rfl⟩

/-- C8 (amended): after cleanup succeeds, the handle is unchanged — the
resource carries no closed flag, cleanup always succeeds on it, and a
subsequent process call behaves exactly as a normal invoke (converting the
input and running the component) rather than being rejected; post-close
rejection is delegated to the host's handle discipline. -/
theorem cleanup_leaves_handle_usable :
    ∀ (c : LuxComponent) (input : Term) (v : Value),
      term_to_json input = .ok v →
      cleanup ⟨c⟩ = .ok "ok" ∧ process ⟨c⟩ input = json_to_term v := by
  intro c input v h
  rcases c with ⟨cfg⟩
  refine ⟨rfl, ?_⟩
  rw [process_eq, h]
  rfl

/-- C8 witness: post-close behaviour at a concrete handle and input. -/
theorem cleanup_leaves_handle_usable_witness :
    cleanup ⟨.echo .null⟩ = .ok "ok" ∧
    process ⟨.echo .null⟩ (.binary "hello") = json_to_term (Value.string "hello") :=
  cleanup_leaves_handle_usable (.echo .null) (.binary "hello") (Value.string "hello") rfl

/-- C10: a host term satisfying the list predicate whose cells do not decode
as a proper list of terms converts to the empty Array, not to an error or a
partial conversion. -/
theorem improper_list_empty_array :
    ∀ t : Term, t.is_list = true → t.decodeList = none →
      term_to_json t = .ok (.arr []) := by
  intro t hl hd
  cases t with
  | listNil => exact absurd hd (by simp [Term.decodeList])
  | listCons h tl =>
    have htl : Term.decodeList tl = none := by
      by_contra hne
      rcases Option.ne_none_iff_exists.mp hne with ⟨l, hl2⟩
      rw [show Term.decodeList (.listCons h tl) =
          (Term.decodeList tl).map (h :: ·) from rfl, ← hl2] at hd
      exact Option.noConfusion hd
    have hfalse : (Term.decodeList tl).isSome = false := by
      rw [htl]
      rfl
    simp only [term_to_json, hfalse]
    rfl
  | _ => exact Bool.noConfusion hl

/-- C10 witness: a concrete improper list converts to the empty Array. -/
theorem improper_list_empty_array_witness :
    term_to_json (.listCons (.atom "nil") (.int 1)) = .ok (.arr []) :=
  improper_list_empty_array (.listCons (.atom "nil") (.int 1)) rfl rfl

end Lux
